import Mathlib

/-!
Verification of the ChessTools board/piece data model
(`chess_tools/game/board.py`, `chess_tools/game/piece.py`,
`chess_tools/game/enums.py`).

The Python code is shallowly embedded: dynamically typed arguments become the
inductive `PyObj`; raised exceptions become `Except ChessError`; mutating
`Board` methods become functions returning the raised-or-ok outcome together
with the board after the call; the insertion-ordered occupancy dict
`Board.squares` becomes an association list.
-/

/-- Color enumeration, mirroring `Color` in `chess_tools/game/enums.py`
(the members `WHITE` and `BLACK`). -/
inductive Color where
  | white
  | black
deriving DecidableEq

/-- The two kinds of error the library raises: Python `TypeError` and the
library's `ChessToolsException` (the latter is the domain error). -/
inductive ChessError where
  | typeError
  | domainError
deriving DecidableEq

/-- The runtime class of a concrete chess piece, one per subclass of
`ChessPiece` in `chess_tools/game/piece.py`. -/
inductive PieceKind where
  | king
  | queen
  | rook
  | knight
  | bishop
  | pawn
deriving DecidableEq

/-- A chess piece: the runtime class tag together with the `ChessPiece`
dataclass fields `color`, `value`, `symbol`. The Python `value` field is a
float carrying small integral constants (1.0 .. 9.0); since the code never
performs float arithmetic on it, it is embedded as a rational. -/
structure ChessPiece where
  kind : PieceKind
  color : Color
  value : ℚ
  symbol : String
deriving DecidableEq

/-- `King(color)`: fixes `value=4.0`, `symbol="K"`. -/
def King (color : Color) : ChessPiece := ⟨.king, color, 4, "K"⟩

/-- `Queen(color)`: fixes `value=9.0`, `symbol="Q"`. -/
def Queen (color : Color) : ChessPiece := ⟨.queen, color, 9, "Q"⟩

/-- `Rook(color)`: fixes `value=5.0`, `symbol="R"`. -/
def Rook (color : Color) : ChessPiece := ⟨.rook, color, 5, "R"⟩

/-- `Knight(color)`: fixes `value=3.0`, `symbol="N"`. -/
def Knight (color : Color) : ChessPiece := ⟨.knight, color, 3, "N"⟩

/-- `Bishop(color)`: fixes `value=3.0`, `symbol="B"`. -/
def Bishop (color : Color) : ChessPiece := ⟨.bishop, color, 3, "B"⟩

/-- `Pawn(color)`: fixes `value=1.0`, `symbol=""`. -/
def Pawn (color : Color) : ChessPiece := ⟨.pawn, color, 1, ""⟩

/-- The `icon` property: each concrete class returns its white glyph when
`self.color is Color.WHITE` and its black glyph otherwise. The dispatch on the
runtime class is embedded as a match on the class tag. -/
def ChessPiece.icon (p : ChessPiece) : String :=
  match p.kind, p.color with
  | .king, .white => "♔"
  | .king, .black => "♚"
  | .queen, .white => "♕"
  | .queen, .black => "♛"
  | .rook, .white => "♖"
  | .rook, .black => "♜"
  | .knight, .white => "♘"
  | .knight, .black => "♞"
  | .bishop, .white => "♗"
  | .bishop, .black => "♝"
  | .pawn, .white => "♙"
  | .pawn, .black => "♟"

/-- The `Square` dataclass of `chess_tools/game/board.py`: fields `col` and
`row` (Python ints, embedded as `Int`). Equality and hashing are by the
`(col, row)` pair, which the derived decidable equality gives. -/
structure Square where
  col : Int
  row : Int
deriving DecidableEq

/-- The `Board` dataclass: a `dimension` (Python int) and the occupancy dict
`squares`, embedded as the insertion-ordered list of its key/value entries. -/
structure Board where
  dimension : Int
  squares : List (Square × ChessPiece)
deriving DecidableEq

/-- A dynamically typed Python argument, covering the runtime types the
embedded operations inspect with `isinstance`: ints, strings, `ChessPiece`
instances and `Square` instances. -/
inductive PyObj where
  | intV (n : Int)
  | strV (s : String)
  | pieceV (p : ChessPiece)
  | squareV (s : Square)
deriving DecidableEq

/-- `Square.__post_init__`: raises `TypeError` unless both `row` and `col`
are ints, then raises `ChessToolsException` if `self.row < 1 or self.col < 1`;
otherwise the constructed square carries the given coordinates. -/
def mkSquare (col row : PyObj) : Except ChessError Square :=
  match col, row with
  | .intV c, .intV r =>
    if r < 1 ∨ c < 1 then .error .domainError
    else .ok ⟨c, r⟩
  | _, _ => .error .typeError

/-- The `Square.color` property:
`Color.WHITE if (self.row + self.col) % 2 else Color.BLACK`
(a Python int is truthy exactly when it is nonzero; `%` on a positive modulus
agrees between Python and `Int.emod`). -/
def Square.color (s : Square) : Color :=
  if (s.row + s.col) % 2 ≠ 0 then Color.white else Color.black

/-- Python string indexing `str[i]`: non-negative indices from the front,
negative indices from the back, and `none` models the `IndexError` raised
when the index is out of range. -/
def pyIndex (l : List Char) (i : Int) : Option Char :=
  if 0 ≤ i then l.get? i.toNat
  else if 0 ≤ (l.length : Int) + i then l.get? ((l.length : Int) + i).toNat
  else none

/-- The fixed file-letter sequence `"abcdefgh"` indexed by `Square.notation`. -/
def fileLetters : List Char := "abcdefgh".toList

/-- The `Square.notation` property: the f-string
`f"{'abcdefgh'[self.col - 1]}{self.row}"`. The result is `none` when the
indexing raises `IndexError` (column beyond the 8-character sequence). -/
def Square.label (s : Square) : Option String :=
  (pyIndex fileLetters (s.col - 1)).map fun ch => String.mk [ch] ++ toString s.row

/-- `Board.__post_init__`: raises `ChessToolsException` if the dimension is
not an int or is `< 1`; otherwise `squares` is initialized to the empty dict. -/
def mkBoard (dimension : PyObj) : Except ChessError Board :=
  match dimension with
  | .intV d =>
    if d < 1 then .error .domainError
    else .ok ⟨d, []⟩
  | _ => .error .domainError

/-- Dict key lookup on the entry list of `Board.squares` (`squares[s]`, and
`s in squares` is `(lookupSq l s).isSome`). -/
def lookupSq : List (Square × ChessPiece) → Square → Option ChessPiece
  | [], _ => none
  | (k, v) :: rest, s => if k = s then some v else lookupSq rest s

/-- Dict entry deletion `del squares[s]`: removes the entry holding key `s`
(a dict holds at most one entry per key). -/
def eraseSq : List (Square × ChessPiece) → Square → List (Square × ChessPiece)
  | [], _ => []
  | (k, v) :: rest, s => if k = s then rest else (k, v) :: eraseSq rest s

/-- `Board.put(piece, square)`: `TypeError` unless the arguments are a
`ChessPiece` and a `Square`; `ChessToolsException` if `square in self.squares`;
otherwise `self.squares[square] = piece`, which on a fresh key appends the
entry at the end of the dict's insertion order. The returned pair is the
raised-or-ok outcome and the board after the call. -/
def Board.put (b : Board) (pieceArg squareArg : PyObj) :
    Except ChessError Unit × Board :=
  match pieceArg, squareArg with
  | .pieceV p, .squareV s =>
    if (lookupSq b.squares s).isSome then (.error .domainError, b)
    else (.ok (), ⟨b.dimension, b.squares ++ [(s, p)]⟩)
  | _, _ => (.error .typeError, b)

/-- `Board.remove(square)`: `TypeError` unless the argument is a `Square`;
`ChessToolsException` if `square not in self.squares`; otherwise
`del self.squares[square]`. The returned pair is the raised-or-ok outcome and
the board after the call. -/
def Board.remove (b : Board) (squareArg : PyObj) :
    Except ChessError Unit × Board :=
  match squareArg with
  | .squareV s =>
    if (lookupSq b.squares s).isSome then
      (.ok (), ⟨b.dimension, eraseSq b.squares s⟩)
    else (.error .domainError, b)
  | _ => (.error .typeError, b)

/-- The dict invariant of `Board.squares`: keys are pairwise distinct. Every
board reachable through the Python API satisfies it. -/
def Board.wf (b : Board) : Prop := (b.squares.map Prod.fst).Nodup

/-! Helper lemmas about lookup and deletion on the entry list. -/

theorem lookupSq_eq_none_of_not_mem {l : List (Square × ChessPiece)} {s : Square}
    (h : s ∉ l.map Prod.fst) : lookupSq l s = none := by
  induction l with
  | nil => rfl
  | cons kv rest ih =>
    obtain ⟨k, v⟩ := kv
    simp only [List.map_cons, List.mem_cons] at h
    push_neg at h
    simp only [lookupSq]
    rw [if_neg (Ne.symm h.1)]
    exact ih h.2

theorem not_mem_of_lookupSq_eq_none {l : List (Square × ChessPiece)} {s : Square}
    (h : lookupSq l s = none) : s ∉ l.map Prod.fst := by
  induction l with
  | nil => simp
  | cons kv rest ih =>
    obtain ⟨k, v⟩ := kv
    simp only [lookupSq] at h
    split at h
    · exact absurd h (by simp)
    · simp only [List.map_cons, List.mem_cons]
      push_neg
      exact ⟨fun hs => (by simp_all), ih h⟩

theorem lookupSq_append_self {l : List (Square × ChessPiece)} {s : Square}
    (p : ChessPiece) (h : lookupSq l s = none) :
    lookupSq (l ++ [(s, p)]) s = some p := by
  induction l with
  | nil => simp [lookupSq]
  | cons kv rest ih =>
    obtain ⟨k, v⟩ := kv
    simp only [lookupSq] at h
    split at h
    · exact absurd h (by simp)
    · simp only [List.cons_append, lookupSq]
      rw [if_neg (by assumption)]
      exact ih h

theorem lookupSq_append_of_ne {l : List (Square × ChessPiece)} {s s' : Square}
    (p : ChessPiece) (h : s' ≠ s) :
    lookupSq (l ++ [(s, p)]) s' = lookupSq l s' := by
  induction l with
  | nil =>
    simp only [List.nil_append, lookupSq]
    rw [if_neg (Ne.symm h)]
  | cons kv rest ih =>
    obtain ⟨k, v⟩ := kv
    simp only [List.cons_append, lookupSq]
    split
    · rfl
    · exact ih

theorem eraseSq_append_self {l : List (Square × ChessPiece)} {s : Square}
    (p : ChessPiece) (h : lookupSq l s = none) :
    eraseSq (l ++ [(s, p)]) s = l := by
  induction l with
  | nil => simp [eraseSq]
  | cons kv rest ih =>
    obtain ⟨k, v⟩ := kv
    simp only [lookupSq] at h
    split at h
    · exact absurd h (by simp)
    · simp only [List.cons_append, eraseSq]
      rw [if_neg (by assumption)]
      exact congrArg (List.cons (k, v)) (ih h)

theorem lookupSq_eraseSq_self {l : List (Square × ChessPiece)} {s : Square}
    (h : (l.map Prod.fst).Nodup) : lookupSq (eraseSq l s) s = none := by
  induction l with
  | nil => rfl
  | cons kv rest ih =>
    obtain ⟨k, v⟩ := kv
    simp only [List.map_cons, List.nodup_cons] at h
    simp only [eraseSq]
    split
    · rename_i hk
      subst hk
      exact lookupSq_eq_none_of_not_mem h.1
    · simp only [lookupSq]
      rw [if_neg (by assumption)]
      exact ih h.2

/-! Claim theorems. -/

/-- C5: for integers c, r ≥ 1 the Square constructor succeeds and the value
carries col = c and row = r; for integer arguments with c < 1 or r < 1 it
raises ChessToolsException; for a non-integer argument it raises TypeError. -/
theorem square_construction_contract :
    (∀ c r : Int, 1 ≤ c → 1 ≤ r → mkSquare (.intV c) (.intV r) =
      .ok ⟨c, r⟩) ∧
    (∀ c r : Int, c < 1 ∨ r < 1 → mkSquare (.intV c) (.intV r) =
      .error .domainError) ∧
    (∀ a b : PyObj, ((∀ n : Int, a ≠ .intV n) ∨ (∀ n : Int, b ≠ .intV n)) →
      mkSquare a b = .error .typeError) := by
  refine ⟨?_, ?_, ?_⟩
  · intro c r hc hr
    simp only [mkSquare]
    rw [if_neg (by omega)]
  · intro c r h
    simp only [mkSquare]
    rw [if_pos (by omega)]
  · intro a b h
    cases a <;> cases b <;> simp only [mkSquare] <;>
      rcases h with h | h <;> exact absurd rfl (h _)

/-- C5 witness: concrete instances of each clause of the construction
contract. -/
theorem square_construction_contract_witness :
    mkSquare (.intV 3) (.intV 2) = .ok ⟨3, 2⟩ ∧
    mkSquare (.intV 0) (.intV 1) = .error .domainError ∧
    mkSquare (.strV "") (.intV 1) = .error .typeError := by
  refine ⟨square_construction_contract.1 3 2 (by decide) (by decide),
    square_construction_contract.2.1 0 1 (Or.inl (by decide)),
    square_construction_contract.2.2 (.strV "") (.intV 1)
      (Or.inl fun n hn => by cases hn)⟩

/-- C6: the color of a validly constructed square is BLACK when (row + col)
is even and WHITE when odd; Square(1,1) is BLACK and Square(2,1) is WHITE;
the color depends only on (row + col) mod 2. -/
theorem square_color_parity :
    (∀ c r : Int, 1 ≤ c → 1 ≤ r → (r + c) % 2 = 0 →
      (Square.mk c r).color = Color.black) ∧
    (∀ c r : Int, 1 ≤ c → 1 ≤ r → (r + c) % 2 ≠ 0 →
      (Square.mk c r).color = Color.white) ∧
    (Square.mk 1 1).color = Color.black ∧
    (Square.mk 2 1).color = Color.white ∧
    (∀ c r c' r' : Int, 1 ≤ c → 1 ≤ r → 1 ≤ c' → 1 ≤ r' →
      (r + c) % 2 = (r' + c') % 2 →
      (Square.mk c r).color = (Square.mk c' r').color) := by
  refine ⟨?_, ?_, by decide, by decide, ?_⟩
  · intro c r _ _ h
    simp [Square.color, h]
  · intro c r _ _ h
    simp [Square.color, h]
  · intro c r c' r' _ _ _ _ h
    simp only [Square.color, h]

/-- C6 witness: concrete instances of the parity clauses. -/
theorem square_color_parity_witness :
    (Square.mk 3 1).color = Color.black ∧
    (Square.mk 4 1).color = Color.white ∧
    (Square.mk 1 1).color = (Square.mk 3 3).color := by
  refine ⟨square_color_parity.1 3 1 (by decide) (by decide) (by decide),
    square_color_parity.2.1 4 1 (by decide) (by decide) (by decide),
    square_color_parity.2.2.2.2 1 1 3 3 (by decide) (by decide) (by decide)
      (by decide) (by decide)⟩

/-- C8: the Board constructor raises ChessToolsException on a non-positive
int dimension and on a non-int dimension; on an int d ≥ 1 it succeeds with
dimension d and an empty occupancy map. -/
theorem board_construction_contract :
    (∀ d : Int, 1 ≤ d → mkBoard (.intV d) = .ok ⟨d, []⟩) ∧
    (∀ d : Int, d < 1 → mkBoard (.intV d) = .error .domainError) ∧
    (∀ a : PyObj, (∀ n : Int, a ≠ .intV n) → mkBoard a = .error .domainError) := by
  refine ⟨?_, ?_, ?_⟩
  · intro d hd
    simp only [mkBoard]
    rw [if_neg (by omega)]
  · intro d hd
    simp only [mkBoard]
    rw [if_pos hd]
  · intro a h
    cases a <;> simp only [mkBoard]
    exact absurd rfl (h _)

/-- C8 witness: Board(8) succeeds empty; Board(0) and Board("invalid") raise
the domain error. -/
theorem board_construction_contract_witness :
    mkBoard (.intV 8) = .ok ⟨8, []⟩ ∧
    mkBoard (.intV 0) = .error .domainError ∧
    mkBoard (.strV "invalid") = .error .domainError := by
  refine ⟨board_construction_contract.1 8 (by decide),
    board_construction_contract.2.1 0 (by decide),
    board_construction_contract.2.2 (.strV "invalid") fun n hn => by cases hn⟩

/-- C1: Board.put raises TypeError when the piece argument is not a
ChessPiece or the square argument is not a Square; raises ChessToolsException
when the square is already a key of the occupancy dict; and otherwise
succeeds, after which the dict maps the square to the piece. -/
theorem put_contract :
    (∀ (b : Board) (pa sa : PyObj),
      ((∀ p : ChessPiece, pa ≠ .pieceV p) ∨ (∀ s : Square, sa ≠ .squareV s)) →
      (b.put pa sa).1 = .error .typeError) ∧
    (∀ (b : Board) (p : ChessPiece) (s : Square),
      (lookupSq b.squares s).isSome →
      (b.put (.pieceV p) (.squareV s)).1 = .error .domainError) ∧
    (∀ (b : Board) (p : ChessPiece) (s : Square),
      lookupSq b.squares s = none →
      (b.put (.pieceV p) (.squareV s)).1 = .ok () ∧
      lookupSq (b.put (.pieceV p) (.squareV s)).2.squares s = some p) := by
  refine ⟨?_, ?_, ?_⟩
  · intro b pa sa h
    cases pa <;> cases sa <;> simp only [Board.put] <;>
      first
        | rfl
        | (rcases h with h | h <;> exact absurd rfl (h _))
  · intro b p s h
    simp only [Board.put]
    rw [if_pos h]
  · intro b p s h
    simp only [Board.put]
    rw [if_neg (by simp [h])]
    exact ⟨rfl, lookupSq_append_self p h⟩

/-- C1 witness: a concrete board exercising the type-error, occupied and
success clauses of the put contract. -/
theorem put_contract_witness :
    ((⟨8, []⟩ : Board).put (.strV "invalid_piece") (.squareV ⟨1, 1⟩)).1 =
      .error .typeError ∧
    ((⟨8, [(⟨1, 1⟩, King .white)]⟩ : Board).put (.pieceV (Pawn .black))
      (.squareV ⟨1, 1⟩)).1 = .error .domainError ∧
    ((⟨8, []⟩ : Board).put (.pieceV (Pawn .black)) (.squareV ⟨1, 1⟩)).1 =
      .ok () ∧
    lookupSq ((⟨8, []⟩ : Board).put (.pieceV (Pawn .black))
      (.squareV ⟨1, 1⟩)).2.squares ⟨1, 1⟩ = some (Pawn .black) := by
  refine ⟨put_contract.1 ⟨8, []⟩ (.strV "invalid_piece") (.squareV ⟨1, 1⟩)
      (Or.inl fun p hp => by cases hp),
    put_contract.2.1 ⟨8, [(⟨1, 1⟩, King .white)]⟩ (Pawn .black) ⟨1, 1⟩
      (by simp [lookupSq]),
    (put_contract.2.2 ⟨8, []⟩ (Pawn .black) ⟨1, 1⟩ rfl).1,
    (put_contract.2.2 ⟨8, []⟩ (Pawn .black) ⟨1, 1⟩ rfl).2⟩

/-- C2: Board.remove raises TypeError when the argument is not a Square;
raises ChessToolsException when the square is not a key of the occupancy
dict; and otherwise succeeds, after which (dict keys being pairwise distinct)
the square is no longer a key. -/
theorem remove_contract :
    (∀ (b : Board) (sa : PyObj), (∀ s : Square, sa ≠ .squareV s) →
      (b.remove sa).1 = .error .typeError) ∧
    (∀ (b : Board) (s : Square), lookupSq b.squares s = none →
      (b.remove (.squareV s)).1 = .error .domainError) ∧
    (∀ (b : Board) (s : Square), b.wf → (lookupSq b.squares s).isSome →
      (b.remove (.squareV s)).1 = .ok () ∧
      lookupSq (b.remove (.squareV s)).2.squares s = none) := by
  refine ⟨?_, ?_, ?_⟩
  · intro b sa h
    cases sa <;> simp only [Board.remove]
    exact absurd rfl (h _)
  · intro b s h
    simp only [Board.remove]
    rw [if_neg (by simp [h])]
  · intro b s hwf h
    simp only [Board.remove]
    rw [if_pos h]
    exact ⟨rfl, lookupSq_eraseSq_self hwf⟩

/-- C2 witness: a concrete board exercising the type-error, unoccupied and
success clauses of the remove contract. -/
theorem remove_contract_witness :
    ((⟨8, []⟩ : Board).remove (.strV "invalid_square")).1 =
      .error .typeError ∧
    ((⟨8, []⟩ : Board).remove (.squareV ⟨1, 1⟩)).1 = .error .domainError ∧
    ((⟨8, [(⟨1, 1⟩, King .white)]⟩ : Board).remove (.squareV ⟨1, 1⟩)).1 =
      .ok () ∧
    lookupSq ((⟨8, [(⟨1, 1⟩, King .white)]⟩ : Board).remove
      (.squareV ⟨1, 1⟩)).2.squares ⟨1, 1⟩ = none := by
  refine ⟨remove_contract.1 ⟨8, []⟩ (.strV "invalid_square")
      (fun s hs => by cases hs),
    remove_contract.2.1 ⟨8, []⟩ ⟨1, 1⟩ rfl,
    (remove_contract.2.2 ⟨8, [(⟨1, 1⟩, King .white)]⟩ ⟨1, 1⟩
      (by simp [Board.wf]) (by simp [lookupSq])).1,
    (remove_contract.2.2 ⟨8, [(⟨1, 1⟩, King .white)]⟩ ⟨1, 1⟩
      (by simp [Board.wf]) (by simp [lookupSq])).2⟩

/-- C3: failing board operations are atomic: whenever put or remove returns a
raised error (type or domain), the board after the call — occupancy dict and
dimension alike — equals the board before it. -/
theorem failing_ops_atomic :
    (∀ (b : Board) (pa sa : PyObj) (e : ChessError),
      (b.put pa sa).1 = .error e → (b.put pa sa).2 = b) ∧
    (∀ (b : Board) (sa : PyObj) (e : ChessError),
      (b.remove sa).1 = .error e → (b.remove sa).2 = b) := by
  constructor
  · intro b pa sa e h
    cases pa <;> cases sa <;> simp only [Board.put] at h ⊢ <;>
      first
        | rfl
        | (rename_i p s
           by_cases hc : (lookupSq b.squares s).isSome
           · rw [if_pos hc]
           · rw [if_neg hc] at h
             exact absurd h (by simp))
  · intro b sa e h
    cases sa <;> simp only [Board.remove] at h ⊢
    case squareV s =>
      by_cases hc : (lookupSq b.squares s).isSome
      · rw [if_pos hc] at h
        exact absurd h (by simp)
      · rw [if_neg hc]

/-- C3 witness: a put onto an occupied square and a remove from an empty
square both leave a concrete board unchanged. -/
theorem failing_ops_atomic_witness :
    ((⟨8, [(⟨1, 1⟩, King .white)]⟩ : Board).put (.pieceV (Pawn .black))
      (.squareV ⟨1, 1⟩)).2 = ⟨8, [(⟨1, 1⟩, King .white)]⟩ ∧
    ((⟨8, []⟩ : Board).remove (.squareV ⟨2, 2⟩)).2 = ⟨8, []⟩ := by
  exact ⟨failing_ops_atomic.1 ⟨8, [(⟨1, 1⟩, King .white)]⟩
      (.pieceV (Pawn .black)) (.squareV ⟨1, 1⟩) .domainError (by simp [Board.put, lookupSq]),
    failing_ops_atomic.2 ⟨8, []⟩ (.squareV ⟨2, 2⟩) .domainError rfl⟩

/-- C4: put followed by remove on a previously free square restores the board
exactly, and between the two operations every square other than the inserted
one is mapped as it was before the put. -/
theorem put_remove_round_trip :
    ∀ (b : Board) (p : ChessPiece) (s : Square),
      lookupSq b.squares s = none →
      ((b.put (.pieceV p) (.squareV s)).2.remove (.squareV s)).2 = b ∧
      (∀ s' : Square, s' ≠ s →
        lookupSq (b.put (.pieceV p) (.squareV s)).2.squares s' =
          lookupSq b.squares s') := by
  intro b p s h
  have hput : (b.put (.pieceV p) (.squareV s)).2 =
      ⟨b.dimension, b.squares ++ [(s, p)]⟩ := by
    simp only [Board.put]
    rw [if_neg (by simp [h])]
  constructor
  · rw [hput]
    simp only [Board.remove]
    rw [if_pos (by simp [lookupSq_append_self p h])]
    simp only [Prod.snd]
    rw [eraseSq_append_self p h]
  · intro s' hs
    rw [hput]
    exact lookupSq_append_of_ne p hs

/-- C4 witness: a concrete round trip on a board already holding another
piece elsewhere. -/
theorem put_remove_round_trip_witness :
    (((⟨8, [(⟨2, 2⟩, Queen .black)]⟩ : Board).put (.pieceV (King .white))
      (.squareV ⟨1, 1⟩)).2.remove (.squareV ⟨1, 1⟩)).2 =
      ⟨8, [(⟨2, 2⟩, Queen .black)]⟩ ∧
    lookupSq ((⟨8, [(⟨2, 2⟩, Queen .black)]⟩ : Board).put
      (.pieceV (King .white)) (.squareV ⟨1, 1⟩)).2.squares ⟨2, 2⟩ =
      some (Queen .black) := by
  refine ⟨(put_remove_round_trip ⟨8, [(⟨2, 2⟩, Queen .black)]⟩ (King .white)
      ⟨1, 1⟩ (by simp [lookupSq])).1, ?_⟩
  rw [(put_remove_round_trip ⟨8, [(⟨2, 2⟩, Queen .black)]⟩ (King .white)
      ⟨1, 1⟩ (by simp [lookupSq])).2 ⟨2, 2⟩ (by simp)]
  simp [lookupSq]

/-- C9: put makes no range check of the square's coordinates against the
board dimension: for every board, piece and validly constructed square not
currently a key — the coordinates may exceed the dimension — put succeeds. -/
theorem put_unbounded :
    ∀ (b : Board) (p : ChessPiece) (s : Square),
      1 ≤ s.col → 1 ≤ s.row →
      lookupSq b.squares s = none →
      (b.put (.pieceV p) (.squareV s)).1 = .ok () := by
  intro b p s _ _ h
  simp only [Board.put]
  rw [if_neg (by simp [h])]

/-- C9 witness: putting a king on square (100, 3) of an 8-dimension board
succeeds even though 100 exceeds the dimension. -/
theorem put_unbounded_witness :
    ((⟨8, []⟩ : Board).put (.pieceV (King .white)) (.squareV ⟨100, 3⟩)).1 =
      .ok () :=
  put_unbounded ⟨8, []⟩ (King .white) ⟨100, 3⟩ (by decide) (by decide) rfl

/-- C7: for a validly constructed square with 1 ≤ col ≤ 8 the algebraic label
is the col-th letter of "abcdefgh" followed by the decimal row, with the
concrete values "a1", "h1", "g7"; for col > 8 the fixed 8-character index is
out of range and the property fails instead of producing a string. -/
theorem square_label_law :
    (∀ c r : Int, 1 ≤ c → c ≤ 8 → 1 ≤ r →
      ∃ ch : Char, fileLetters.get? (c - 1).toNat = some ch ∧
        (Square.mk c r).label = some (String.mk [ch] ++ toString r)) ∧
    (Square.mk 1 1).label = some "a1" ∧
    (Square.mk 8 1).label = some "h1" ∧
    (Square.mk 7 7).label = some "g7" ∧
    (∀ c r : Int, 1 ≤ r → 8 < c → (Square.mk c r).label = none) := by
  refine ⟨?_, rfl, rfl, rfl, ?_⟩
  · intro c r h1 h8 hr
    interval_cases c
    · exact ⟨'a', rfl, rfl⟩
    · exact ⟨'b', rfl, rfl⟩
    · exact ⟨'c', rfl, rfl⟩
    · exact ⟨'d', rfl, rfl⟩
    · exact ⟨'e', rfl, rfl⟩
    · exact ⟨'f', rfl, rfl⟩
    · exact ⟨'g', rfl, rfl⟩
    · exact ⟨'h', rfl, rfl⟩
  · intro c r hr hc
    have hlen : fileLetters.length = 8 := rfl
    simp only [Square.label, pyIndex]
    rw [if_pos (by omega), List.get?_eq_none.mpr (by omega)]
    rfl

/-- C7 witness: the general letter law at column 2, row 5, and the failure
beyond the 8th column at column 9. -/
theorem square_label_law_witness :
    (∃ ch : Char, fileLetters.get? ((2 : Int) - 1).toNat = some ch ∧
      (Square.mk 2 5).label = some (String.mk [ch] ++ toString (5 : Int))) ∧
    (Square.mk 9 1).label = none :=
  ⟨square_label_law.1 2 5 (by decide) (by decide) (by decide),
    square_label_law.2.2.2.2 9 1 (by decide) (by decide)⟩

/-- C10: each of the six piece variants fixes the (value, symbol) pair given
in the table — King (4.0, "K"), Queen (9.0, "Q"), Rook (5.0, "R"),
Knight (3.0, "N"), Bishop (3.0, "B"), Pawn (1.0, "") — for both colors, and
each variant's icon is its white glyph for WHITE and its black glyph for
BLACK. -/
theorem piece_variant_table :
    (∀ c : Color,
      (King c).value = 4 ∧ (King c).symbol = "K" ∧
      (Queen c).value = 9 ∧ (Queen c).symbol = "Q" ∧
      (Rook c).value = 5 ∧ (Rook c).symbol = "R" ∧
      (Knight c).value = 3 ∧ (Knight c).symbol = "N" ∧
      (Bishop c).value = 3 ∧ (Bishop c).symbol = "B" ∧
      (Pawn c).value = 1 ∧ (Pawn c).symbol = "") ∧
    (King .white).icon = "♔" ∧ (King .black).icon = "♚" ∧
    (Queen .white).icon = "♕" ∧ (Queen .black).icon = "♛" ∧
    (Rook .white).icon = "♖" ∧ (Rook .black).icon = "♜" ∧
    (Knight .white).icon = "♘" ∧ (Knight .black).icon = "♞" ∧
    (Bishop .white).icon = "♗" ∧ (Bishop .black).icon = "♝" ∧
    (Pawn .white).icon = "♙" ∧ (Pawn .black).icon = "♟" := by
  refine ⟨fun c => ?_, rfl, rfl, rfl, rfl, rfl, rfl, rfl, rfl, rfl, rfl,
    rfl, rfl⟩
  cases c <;>
    exact ⟨rfl, rfl, rfl, rfl, rfl, rfl, rfl, rfl, rfl, rfl, rfl, rfl⟩
